import Mathlib

/-!
Shallow embedding of the data-quality scoring engine of the repository:
the function `compute_quality_flags(df, **kwargs)` of
`src/homeworks/HW03/eda-cli/src/eda_cli/core.py`.

A pandas `DataFrame` is modelled as a `Table`: a row count and an ordered
list of named, dtype-tagged columns whose cells are optional values
(`none` models a missing value / NaN marker).  Floating-point arithmetic
of the source is modelled exactly over `ℚ`; the NaN produced by pandas
when a share is divided by a zero row count is modelled by `Option ℚ`
(`none` = NaN), mirroring that `0 / 0` is NaN and that any comparison
with NaN is false.
-/

/-- A cell value: numeric (modelled exactly as a rational) or text. -/
inductive Val where
  | num (q : ℚ)
  | str (s : String)
deriving DecidableEq, Repr

/-- The pandas dtype of a column, as far as the engine inspects it:
`select_dtypes(include=['object', 'category'])` picks `object` columns,
`select_dtypes(include=[np.number])` picks `numeric` columns, anything
else (bool, datetime, ...) is `other`. -/
inductive Dtype where
  | numeric
  | object
  | other
deriving DecidableEq, Repr

/-- One named column of a table; `none` entries are missing values. -/
structure Column where
  name : String
  dtype : Dtype
  values : List (Option Val)
deriving DecidableEq, Repr

/-- A table: `nRows` is `len(df)` (the index length) and `cols` the ordered
columns.  A real `DataFrame` is rectangular; `WF` states that. -/
structure Table where
  nRows : ℕ
  cols : List Column
deriving DecidableEq, Repr

/-- Rectangularity of a table: every column has exactly `nRows` cells. -/
def Table.WF (t : Table) : Prop := ∀ c ∈ t.cols, c.values.length = t.nRows

/-- Division of a count by the row count, as pandas performs it:
when the denominator is `0` the quotient is NaN (here `none`); in the
source this only happens with a zero numerator (`0 / 0` = NaN). -/
def pdiv (a b : ℕ) : Option ℚ := if b = 0 then none else some ((a : ℚ) / (b : ℚ))

/-- The comparison `x > t` on a possibly-NaN share: any comparison with
NaN is false in IEEE / pandas semantics. -/
def pgt (x : Option ℚ) (t : ℚ) : Bool :=
  match x with
  | none => false
  | some q => decide (t < q)

/-- `df[col].isnull().sum()`: number of missing cells of one column. -/
def missing_count (c : Column) : ℕ := c.values.count none

/-- `df.isnull().sum() / len(df)` as a mapping column name → share,
the `metrics["missing_shares"]` dictionary (line 31-32 of the source). -/
def missing_shares (t : Table) : List (String × Option ℚ) :=
  t.cols.map (fun c => (c.name, pdiv (missing_count c) t.nRows))

/-- `missing_shares.max()` as used on line 93 of the source: the maximum
of the defined shares (pandas `max` skips NaN); `0` when none is defined.
It is only consulted when some column has a positive missing count, in
which case the row count is positive, every share is defined and
non-negative, and the fold below is the true maximum. -/
def max_missing_share (t : Table) : ℚ :=
  ((missing_shares t).filterMap (fun p => p.2)).foldr max 0

/-- Counts the elements of a list that are equal to an element occurring
earlier, the accumulator holding the values already seen.  This is
`Series.duplicated().sum()` / `DataFrame.duplicated().sum()` semantics:
the first occurrence is not counted, NaN equals NaN. -/
def dupCountAux {α : Type} [DecidableEq α] : List α → List α → ℕ
  | _, [] => 0
  | seen, v :: rest => (if v ∈ seen then 1 else 0) + dupCountAux (v :: seen) rest

/-- `duplicated().sum()` over a list of values. -/
def dupCount {α : Type} [DecidableEq α] (l : List α) : ℕ := dupCountAux [] l

/-- Row `i` of a table, as the tuple of its cells across the columns. -/
def Table.row (t : Table) (i : ℕ) : List (Option (Option Val)) :=
  t.cols.map (fun c => c.values[i]?)

/-- All rows of a table in order. -/
def Table.rows (t : Table) : List (List (Option (Option Val))) :=
  (List.range t.nRows).map t.row

/-- `df.duplicated().sum()` (line 36 of the source): the number of rows
equal to an earlier row.  On an empty frame (no columns or no rows)
pandas returns an empty boolean series, whose sum is `0`. -/
def duplicate_row_count (t : Table) : ℕ :=
  if t.cols = [] then 0 else dupCount t.rows

/-- `df[col].nunique()`: the number of distinct non-missing values. -/
def nunique (c : Column) : ℕ := (c.values.filterMap id).dedup.length

/-- Lines 41-44 of the source: the columns whose `nunique()` equals 1. -/
def constant_columns (t : Table) : List String :=
  (t.cols.filter (fun c => nunique c == 1)).map (fun c => c.name)

/-- Lines 52-56: among `object`/`category` columns, those whose distinct
count strictly exceeds the threshold, paired with that count. -/
def high_cardinality_cols (t : Table) (threshold : ℚ) : List (String × ℕ) :=
  ((t.cols.filter (fun c => c.dtype == .object)).filter
      (fun c => decide (threshold < (nunique c : ℚ)))).map
    (fun c => (c.name, nunique c))

/-- `col.lower()` on a column name, as its character list (`str.lower`
maps each character to its lowercase form; column names are ASCII). -/
def lowerName (s : String) : List Char := s.data.map Char.toLower

/-- `'id' in col.lower()` (line 61): the name contains the substring
"id" case-insensitively. -/
def containsId (s : String) : Bool :=
  decide ("id".toList <:+: lowerName s)

/-- Line 61: the candidate identifier columns. -/
def id_columns (t : Table) : List Column :=
  t.cols.filter (fun c => containsId c.name)

/-- Lines 62-67: candidates whose `duplicated().sum()` is positive,
paired with that duplicate count. -/
def suspicious_id_cols (t : Table) : List (String × ℕ) :=
  ((id_columns t).filter (fun c => dupCount c.values != 0)).map
    (fun c => (c.name, dupCount c.values))

/-- `(df[col] == 0).sum()`: cells equal to the number zero (a missing
cell never compares equal to zero). -/
def zero_count (c : Column) : ℕ := c.values.count (some (Val.num 0))

/-- Lines 76-83: among numeric columns, those whose zero share strictly
exceeds the threshold, paired with that share (NaN shares compare
false, so they never qualify). -/
def many_zero_cols (t : Table) (threshold : ℚ) : List (String × Option ℚ) :=
  ((t.cols.filter (fun c => c.dtype == .numeric)).filter
      (fun c => pgt (pdiv (zero_count c) t.nRows) threshold)).map
    (fun c => (c.name, pdiv (zero_count c) t.nRows))

/-- The keyword arguments of a call, as name/value pairs (thresholds are
the only values the engine ever reads, so values are numbers). -/
abbrev Kwargs : Type := List (String × ℚ)

/-- `kwargs.get(key, default)`. -/
def kwGet (kw : Kwargs) (k : String) (d : ℚ) : ℚ :=
  match kw.find? (fun p => p.1 == k) with
  | some p => p.2
  | none => d

/-- The `metrics` sub-dictionary of the result. -/
structure Metrics where
  missing_shares : List (String × Option ℚ)
  duplicate_rows_count : ℕ
  constant_columns : List String
  high_cardinality_columns : List (String × ℕ)
  suspicious_id_columns : List (String × ℕ)
  many_zero_columns : List (String × Option ℚ)
deriving DecidableEq, Repr

/-- The result dictionary of `compute_quality_flags`: the six flags, the
quality score and the metrics. -/
structure Report where
  has_missing : Bool
  has_duplicate_rows : Bool
  has_constant_column : Bool
  has_high_cardinality_categories : Bool
  has_suspicious_id_duplicates : Bool
  has_many_zero_values : Bool
  quality_score : ℚ
  metrics : Metrics
deriving DecidableEq, Repr

/-- The engine, `compute_quality_flags(df, **kwargs)` (lines 7-115 of
`core.py`), translated check by check in source order. -/
def compute_quality_flags (df : Table) (kwargs : Kwargs) : Report :=
  -- 1. missingness (lines 30-33)
  let missing_counts := df.cols.map (fun c => (c.name, missing_count c))
  let missing_shares := missing_shares df
  let has_missing := missing_counts.any (fun p => p.2 != 0)
  -- 2. duplicate rows (lines 36-38)
  let duplicate_count := duplicate_row_count df
  let has_duplicate_rows := duplicate_count != 0
  -- 3. constant columns (lines 41-46)
  let constant_cols := constant_columns df
  let has_constant_column := constant_cols != []
  -- 4. high-cardinality categorical columns (lines 50-58)
  let high_cardinality_threshold := kwGet kwargs "high_cardinality_threshold" 100
  let high_cardinality_columns := high_cardinality_cols df high_cardinality_threshold
  let has_high_cardinality_categories := high_cardinality_columns != []
  -- 5. suspicious id duplicates (lines 61-70)
  let suspicious_id_columns := suspicious_id_cols df
  let has_suspicious_id_duplicates := suspicious_id_columns != []
  -- 6. many zero values (lines 74-86)
  let zero_threshold := kwGet kwargs "zero_threshold" 0.5
  let many_zero_columns := many_zero_cols df zero_threshold
  let has_many_zero_values := many_zero_columns != []
  -- integral quality score (lines 89-112)
  let penalty : ℚ := 0
  let penalty := if has_missing then penalty + max_missing_share df * 0.3 else penalty
  let penalty := if has_duplicate_rows then
      penalty + min ((duplicate_count : ℚ) / (df.nRows : ℚ) * 0.5) 0.2 else penalty
  let penalty := if has_constant_column then
      penalty + 0.1 * (constant_cols.length : ℚ) / (df.cols.length : ℚ) else penalty
  let penalty := if has_high_cardinality_categories then penalty + 0.15 else penalty
  let penalty := if has_suspicious_id_duplicates then penalty + 0.2 else penalty
  let penalty := if has_many_zero_values then penalty + 0.1 else penalty
  { has_missing := has_missing
    has_duplicate_rows := has_duplicate_rows
    has_constant_column := has_constant_column
    has_high_cardinality_categories := has_high_cardinality_categories
    has_suspicious_id_duplicates := has_suspicious_id_duplicates
    has_many_zero_values := has_many_zero_values
    quality_score := max 0 (1 - penalty)
    metrics :=
      { missing_shares := missing_shares
        duplicate_rows_count := duplicate_count
        constant_columns := constant_cols
        high_cardinality_columns := high_cardinality_columns
        suspicious_id_columns := suspicious_id_columns
        many_zero_columns := many_zero_columns } }

/-! Spec-side definitions: the quantities the specification's sentences
speak about, written from the spec's words, to be compared with the
engine above. -/

/-- The spec's penalty contribution of `has_missing`:
`max_missing_share * 0.3` when the flag is set, else nothing. -/
def penalty_missing (df : Table) (kw : Kwargs) : ℚ :=
  if (compute_quality_flags df kw).has_missing then max_missing_share df * 0.3 else 0

/-- The spec's penalty contribution of `has_duplicate_rows`:
`min(duplicate_row_share * 0.5, 0.2)` when the flag is set. -/
def penalty_duplicates (df : Table) (kw : Kwargs) : ℚ :=
  if (compute_quality_flags df kw).has_duplicate_rows then
    min ((duplicate_row_count df : ℚ) / (df.nRows : ℚ) * 0.5) 0.2 else 0

/-- The spec's penalty contribution of `has_constant_column`:
`0.1 * (num_constant_columns / num_total_columns)` when the flag is set. -/
def penalty_constant (df : Table) (kw : Kwargs) : ℚ :=
  if (compute_quality_flags df kw).has_constant_column then
    0.1 * ((constant_columns df).length : ℚ) / (df.cols.length : ℚ) else 0

/-- The spec's flat `0.15` contribution of `has_high_cardinality_categories`. -/
def penalty_high_cardinality (df : Table) (kw : Kwargs) : ℚ :=
  if (compute_quality_flags df kw).has_high_cardinality_categories then 0.15 else 0

/-- The spec's flat `0.20` contribution of `has_suspicious_id_duplicates`. -/
def penalty_suspicious_id (df : Table) (kw : Kwargs) : ℚ :=
  if (compute_quality_flags df kw).has_suspicious_id_duplicates then 0.2 else 0

/-- The spec's flat `0.10` contribution of `has_many_zero_values`. -/
def penalty_zeros (df : Table) (kw : Kwargs) : ℚ :=
  if (compute_quality_flags df kw).has_many_zero_values then 0.1 else 0

/-- The spec's `total_penalty`: the sum of the six independent additive
contributions. -/
def total_penalty (df : Table) (kw : Kwargs) : ℚ :=
  penalty_missing df kw + penalty_duplicates df kw + penalty_constant df kw
    + penalty_high_cardinality df kw + penalty_suspicious_id df kw + penalty_zeros df kw

/-- The spec's notion of a constant column: exactly one distinct
non-missing value occurs in the column. -/
def UniqueNonMissing (c : Column) : Prop :=
  ∃ v, some v ∈ c.values ∧ ∀ w, some w ∈ c.values → w = v

/-- The spec's notion of the duplicate count of a value sequence: the
number of positions holding a value equal to an occurrence at an
earlier position. -/
def earlierDuplicateCount {α : Type} [DecidableEq α] (l : List α) : ℕ :=
  (List.range l.length).countP (fun i =>
    match l[i]? with
    | some w => decide (w ∈ l.take i)
    | none => false)

/-- The engine with the table state threaded explicitly through every
read: each pandas call the source performs on the frame (`isnull`,
`duplicated`, `nunique`, `select_dtypes`, elementwise `==`) is a
non-mutating read, so each step returns the table it was handed.  The
second component of the result is the caller's table after the call. -/
def analyze (df0 : Table) (kwargs : Kwargs) : Report × Table :=
  let (missing_counts, df1) := (df0.cols.map (fun c => (c.name, missing_count c)), df0)
  let (mshares, df2) := (missing_shares df1, df1)
  let has_missing := missing_counts.any (fun p => p.2 != 0)
  let (duplicate_count, df3) := (duplicate_row_count df2, df2)
  let has_duplicate_rows := duplicate_count != 0
  let (constant_cols, df4) := (constant_columns df3, df3)
  let has_constant_column := constant_cols != []
  let high_cardinality_threshold := kwGet kwargs "high_cardinality_threshold" 100
  let (hc_cols, df5) := (high_cardinality_cols df4 high_cardinality_threshold, df4)
  let has_high_cardinality_categories := hc_cols != []
  let (sid_cols, df6) := (suspicious_id_cols df5, df5)
  let has_suspicious_id_duplicates := sid_cols != []
  let zero_threshold := kwGet kwargs "zero_threshold" 0.5
  let (mz_cols, df7) := (many_zero_cols df6 zero_threshold, df6)
  let has_many_zero_values := mz_cols != []
  let penalty : ℚ := 0
  let penalty := if has_missing then penalty + max_missing_share df7 * 0.3 else penalty
  let penalty := if has_duplicate_rows then
      penalty + min ((duplicate_count : ℚ) / (df7.nRows : ℚ) * 0.5) 0.2 else penalty
  let penalty := if has_constant_column then
      penalty + 0.1 * (constant_cols.length : ℚ) / (df7.cols.length : ℚ) else penalty
  let penalty := if has_high_cardinality_categories then penalty + 0.15 else penalty
  let penalty := if has_suspicious_id_duplicates then penalty + 0.2 else penalty
  let penalty := if has_many_zero_values then penalty + 0.1 else penalty
  ({ has_missing := has_missing
     has_duplicate_rows := has_duplicate_rows
     has_constant_column := has_constant_column
     has_high_cardinality_categories := has_high_cardinality_categories
     has_suspicious_id_duplicates := has_suspicious_id_duplicates
     has_many_zero_values := has_many_zero_values
     quality_score := max 0 (1 - penalty)
     metrics :=
       { missing_shares := mshares
         duplicate_rows_count := duplicate_count
         constant_columns := constant_cols
         high_cardinality_columns := hc_cols
         suspicious_id_columns := sid_cols
         many_zero_columns := mz_cols } }, df7)

/-! Concrete tables, taken from the scenarios of the spec and the
repository's tests. -/

/-- Column `A` of the test table `{A: [1,1,1], B: [2,3,4]}`. -/
def cA : Column := ⟨"A", .numeric, [some (.num 1), some (.num 1), some (.num 1)]⟩

/-- Column `B` of the test table `{A: [1,1,1], B: [2,3,4]}`. -/
def cB : Column := ⟨"B", .numeric, [some (.num 2), some (.num 3), some (.num 4)]⟩

/-- The test table `{A: [1,1,1], B: [2,3,4]}`. -/
def tblConst : Table := ⟨3, [cA, cB]⟩

/-- A text column `c` with two distinct values. -/
def cCat : Column := ⟨"c", .object, [some (.str "x"), some (.str "y")]⟩

/-- A table of one text column with two distinct values. -/
def tblCat : Table := ⟨2, [cCat]⟩

/-- The test column `user_id: [1,2,2,4]`. -/
def cUid : Column :=
  ⟨"user_id", .numeric, [some (.num 1), some (.num 2), some (.num 2), some (.num 4)]⟩

/-- The test table `{user_id: [1,2,2,4]}`. -/
def tblUid : Table := ⟨4, [cUid]⟩

/-- A table with one column and zero rows. -/
def tblEmptyRows : Table := ⟨0, [⟨"a", .numeric, []⟩]⟩

/-! Helper lemmas. -/

/-- The fold computing a maximum of rationals against default `0` is
non-negative. -/
theorem zero_le_foldr_max (l : List ℚ) : 0 ≤ l.foldr max 0 := by
  induction l with
  | nil => simp
  | cons x xs ih => exact le_trans ih (le_max_right x _)

/-- Peeling one conditional accumulation step into an additive term. -/
theorem ite_add_split (b : Bool) (p t : ℚ) :
    (if b then p + t else p) = p + (if b then t else 0) := by
  cases b <;> simp

/-- The quality score of the engine equals the clamped complement of the
spec's `total_penalty`. -/
theorem score_eq_total_penalty (df : Table) (kw : Kwargs) :
    (compute_quality_flags df kw).quality_score = max 0 (1 - total_penalty df kw) := by
  dsimp only [total_penalty, penalty_missing, penalty_duplicates, penalty_constant,
    penalty_high_cardinality, penalty_suspicious_id, penalty_zeros, compute_quality_flags]
  simp only [ite_add_split, zero_add]

/-- `max_missing_share` is non-negative. -/
theorem max_missing_share_nonneg (df : Table) : 0 ≤ max_missing_share df :=
  zero_le_foldr_max _

/-- Every contribution of the spec's penalty model is non-negative. -/
theorem total_penalty_nonneg (df : Table) (kw : Kwargs) : 0 ≤ total_penalty df kw := by
  have h1 : 0 ≤ penalty_missing df kw := by
    unfold penalty_missing
    split
    · exact mul_nonneg (max_missing_share_nonneg df) (by norm_num)
    · exact le_refl 0
  have h2 : 0 ≤ penalty_duplicates df kw := by
    unfold penalty_duplicates
    split
    · exact le_min (by positivity) (by norm_num)
    · exact le_refl 0
  have h3 : 0 ≤ penalty_constant df kw := by
    unfold penalty_constant
    split
    · positivity
    · exact le_refl 0
  have h4 : 0 ≤ penalty_high_cardinality df kw := by
    unfold penalty_high_cardinality
    split <;> norm_num
  have h5 : 0 ≤ penalty_suspicious_id df kw := by
    unfold penalty_suspicious_id
    split <;> norm_num
  have h6 : 0 ≤ penalty_zeros df kw := by
    unfold penalty_zeros
    split <;> norm_num
  unfold total_penalty
  linarith

/-- Looking up an absent key yields the supplied default. -/
theorem kwGet_of_absent (kw : Kwargs) (k : String) (d : ℚ)
    (h : ∀ p ∈ kw, p.1 ≠ k) : kwGet kw k d = d := by
  unfold kwGet
  have hf : kw.find? (fun p => p.1 == k) = none :=
    List.find?_eq_none.mpr (fun x hx => by simpa using h x hx)
  rw [hf]

/-- C1: for every table and configuration, the quality score equals
`max(0, 1 - total_penalty)` where `total_penalty` is the sum of the six
independent additive contributions of the spec's table
(`max_missing_share * 0.3` if `has_missing`;
`min(duplicate_row_share * 0.5, 0.2)` if `has_duplicate_rows`;
`0.1 * num_constant_columns / num_total_columns` if
`has_constant_column`; flat `0.15`, `0.20`, `0.10` for the remaining
three flags); and when no flag is set the score is exactly `1`. -/
theorem quality_score_is_weighted_penalty (df : Table) (kw : Kwargs) :
    (compute_quality_flags df kw).quality_score
      = max 0 (1 - (penalty_missing df kw + penalty_duplicates df kw + penalty_constant df kw
          + penalty_high_cardinality df kw + penalty_suspicious_id df kw + penalty_zeros df kw))
    ∧ ((compute_quality_flags df kw).has_missing = false →
        (compute_quality_flags df kw).has_duplicate_rows = false →
        (compute_quality_flags df kw).has_constant_column = false →
        (compute_quality_flags df kw).has_high_cardinality_categories = false →
        (compute_quality_flags df kw).has_suspicious_id_duplicates = false →
        (compute_quality_flags df kw).has_many_zero_values = false →
        (compute_quality_flags df kw).quality_score = 1) := by
  constructor
  · exact score_eq_total_penalty df kw
  · intro h1 h2 h3 h4 h5 h6
    rw [score_eq_total_penalty]
    unfold total_penalty penalty_missing penalty_duplicates penalty_constant
      penalty_high_cardinality penalty_suspicious_id penalty_zeros
    rw [h1, h2, h3, h4, h5, h6]
    norm_num

/-- Witness for C1 at the two-value text table, where no flag is set. -/
theorem quality_score_is_weighted_penalty_witness :
    (compute_quality_flags tblCat []).quality_score = 1 :=
  (quality_score_is_weighted_penalty tblCat []).2 (by decide) (by decide) (by decide)
    (by decide) (by decide) (by decide)

/-- C2: for every table and configuration the quality score lies in
`[0, 1]`: never negative, never exceeding one. -/
theorem quality_score_bounds (df : Table) (kw : Kwargs) :
    0 ≤ (compute_quality_flags df kw).quality_score
      ∧ (compute_quality_flags df kw).quality_score ≤ 1 := by
  rw [score_eq_total_penalty]
  constructor
  · exact le_max_left 0 _
  · exact max_le (by norm_num) (by linarith [total_penalty_nonneg df kw])

/-- C8: the analysis is deterministic — two calls on the same unchanged
table with the same configuration yield identical reports (the engine is
a pure function of its two inputs; it reads no other state). -/
theorem analysis_deterministic (df1 df2 : Table) (kw1 kw2 : Kwargs)
    (hdf : df1 = df2) (hkw : kw1 = kw2) :
    compute_quality_flags df1 kw1 = compute_quality_flags df2 kw2 := by
  rw [hdf, hkw]

/-- Witness for C8: two runs on the `user_id` test table agree. -/
theorem analysis_deterministic_witness :
    compute_quality_flags tblUid [] = compute_quality_flags tblUid [] :=
  analysis_deterministic tblUid tblUid [] [] rfl rfl

/-- C10: keyword arguments other than `high_cardinality_threshold` and
`zero_threshold` are silently ignored: the report is the one of a call
with no keyword arguments at all, and the documented defaults `100` and
`0.5` are the thresholds in effect. -/
theorem unknown_kwargs_ignored (df : Table) (kw : Kwargs)
    (h : ∀ p ∈ kw, p.1 ≠ "high_cardinality_threshold" ∧ p.1 ≠ "zero_threshold") :
    compute_quality_flags df kw = compute_quality_flags df []
      ∧ kwGet kw "high_cardinality_threshold" 100 = 100
      ∧ kwGet kw "zero_threshold" 0.5 = 0.5 := by
  have hh : kwGet kw "high_cardinality_threshold" 100 = 100 :=
    kwGet_of_absent kw _ _ (fun p hp => (h p hp).1)
  have hz : kwGet kw "zero_threshold" 0.5 = 0.5 :=
    kwGet_of_absent kw _ _ (fun p hp => (h p hp).2)
  refine ⟨?_, hh, hz⟩
  simp only [compute_quality_flags, hh, hz]
  rfl

/-- Witness for C10: `max_cardinality_threshold=50`, the keyword the
repository's own test passes, changes nothing against a bare call. -/
theorem unknown_kwargs_ignored_witness :
    compute_quality_flags tblCat [("max_cardinality_threshold", 50)]
      = compute_quality_flags tblCat [] :=
  (unknown_kwargs_ignored tblCat [("max_cardinality_threshold", 50)] (by decide)).1

/-- C5: each of the six flags is true exactly when its evidence in the
metrics sub-record is non-empty (for the four list-valued evidence
collections) or strictly positive (for the duplicate-row count and the
per-column missing counts). -/
theorem flags_iff_evidence (df : Table) (kw : Kwargs) :
    ((compute_quality_flags df kw).has_missing = true ↔
        ∃ c ∈ df.cols, 0 < missing_count c)
  ∧ ((compute_quality_flags df kw).has_duplicate_rows = true ↔
        0 < (compute_quality_flags df kw).metrics.duplicate_rows_count)
  ∧ ((compute_quality_flags df kw).has_constant_column = true ↔
        (compute_quality_flags df kw).metrics.constant_columns ≠ [])
  ∧ ((compute_quality_flags df kw).has_high_cardinality_categories = true ↔
        (compute_quality_flags df kw).metrics.high_cardinality_columns ≠ [])
  ∧ ((compute_quality_flags df kw).has_suspicious_id_duplicates = true ↔
        (compute_quality_flags df kw).metrics.suspicious_id_columns ≠ [])
  ∧ ((compute_quality_flags df kw).has_many_zero_values = true ↔
        (compute_quality_flags df kw).metrics.many_zero_columns ≠ []) := by
  refine ⟨?_, ?_, ?_, ?_, ?_, ?_⟩ <;> dsimp only [compute_quality_flags]
  · simp [List.any_map, List.any_eq_true, Function.comp, Nat.pos_iff_ne_zero]
  · simp [Nat.pos_iff_ne_zero]
  · simp
  · simp
  · simp
  · simp

/-- A duplicate-free list whose every element equals `v`, and which
contains `v`, is exactly `[v]`. -/
theorem nodup_all_eq_singleton {α : Type} {l : List α} {v : α}
    (hnd : l.Nodup) (hv : v ∈ l) (hall : ∀ w ∈ l, w = v) : l = [v] := by
  cases l with
  | nil => simp at hv
  | cons x xs =>
    have hx : x = v := hall x (List.mem_cons_self x xs)
    subst hx
    have hxs : xs = [] := by
      cases xs with
      | nil => rfl
      | cons y ys =>
        have hy : y = x := hall y (by simp)
        rw [hy] at hnd
        simp at hnd
    rw [hxs]

/-- The engine's constant-column test `nunique() == 1` holds exactly when
the column has one and only one distinct non-missing value. -/
theorem nunique_eq_one_iff (c : Column) : nunique c = 1 ↔ UniqueNonMissing c := by
  unfold nunique UniqueNonMissing
  have hm : ∀ v : Val, v ∈ c.values.filterMap id ↔ some v ∈ c.values := by
    intro v
    simp [List.mem_filterMap]
  constructor
  · intro h
    obtain ⟨a, ha⟩ := List.length_eq_one.mp h
    refine ⟨a, ?_, ?_⟩
    · rw [← hm, ← List.mem_dedup, ha]
      exact List.mem_singleton_self a
    · intro w hw
      have hw' : w ∈ (c.values.filterMap id).dedup := List.mem_dedup.mpr ((hm w).mpr hw)
      rw [ha] at hw'
      simpa using hw'
  · rintro ⟨v, hv, hall⟩
    have hv' : v ∈ (c.values.filterMap id).dedup := List.mem_dedup.mpr ((hm v).mpr hv)
    have hall' : ∀ w ∈ (c.values.filterMap id).dedup, w = v := fun w hw =>
      hall w ((hm w).mp (List.mem_dedup.mp hw))
    rw [nodup_all_eq_singleton (List.nodup_dedup _) hv' hall']
    rfl

/-- C6: a column name is reported among the constant columns exactly when
a column of that name has one single distinct non-missing value; a column
of only missing values never passes the engine's `nunique() == 1` test;
and the flag is set exactly when the reported list is non-empty. -/
theorem constant_columns_characterized (df : Table) (kw : Kwargs) :
    (∀ nm, nm ∈ (compute_quality_flags df kw).metrics.constant_columns ↔
        ∃ c ∈ df.cols, c.name = nm ∧ UniqueNonMissing c)
  ∧ (∀ c ∈ df.cols, (∀ v ∈ c.values, v = none) → nunique c ≠ 1)
  ∧ ((compute_quality_flags df kw).has_constant_column = true ↔
        (compute_quality_flags df kw).metrics.constant_columns ≠ []) := by
  refine ⟨?_, ?_, ?_⟩
  · intro nm
    dsimp only [compute_quality_flags]
    constructor
    · intro h
      simp only [constant_columns, List.mem_map, List.mem_filter, beq_iff_eq] at h
      obtain ⟨c, ⟨hc, hq⟩, hnm⟩ := h
      exact ⟨c, hc, hnm, (nunique_eq_one_iff c).mp hq⟩
    · rintro ⟨c, hc, hnm, hu⟩
      simp only [constant_columns, List.mem_map, List.mem_filter, beq_iff_eq]
      exact ⟨c, ⟨hc, (nunique_eq_one_iff c).mpr hu⟩, hnm⟩
  · intro c _ hmiss h
    obtain ⟨v, hv, -⟩ := (nunique_eq_one_iff c).mp h
    exact Option.noConfusion (hmiss (some v) hv)
  · dsimp only [compute_quality_flags]
    simp

/-- Witness for C6 at the test table `{A: [1,1,1], B: [2,3,4]}`: column
`A` is reported constant. -/
theorem constant_columns_characterized_witness :
    "A" ∈ (compute_quality_flags tblConst []).metrics.constant_columns :=
  ((constant_columns_characterized tblConst []).1 "A").mpr
    ⟨cA, by decide, rfl, ⟨Val.num 1, by decide, fun w hw => by simpa [cA] using hw⟩⟩

/-- The accumulator-based duplicate count equals the positional count of
elements occurring in the accumulator or earlier in the list. -/
theorem dupCountAux_spec {α : Type} [DecidableEq α] (l : List α) :
    ∀ seen : List α, dupCountAux seen l
      = (List.range l.length).countP (fun i =>
          match l[i]? with
          | some w => decide (w ∈ seen ∨ w ∈ l.take i)
          | none => false) := by
  induction l with
  | nil => intro seen; simp [dupCountAux]
  | cons v rest ih =>
    intro seen
    simp only [dupCountAux]
    rw [List.length_cons, List.range_succ_eq_map, List.countP_cons, List.countP_map]
    have hsucc : ((fun i =>
        match (v :: rest)[i]? with
        | some w => decide (w ∈ seen ∨ w ∈ (v :: rest).take i)
        | none => false) ∘ Nat.succ) = (fun i =>
          match rest[i]? with
          | some w => decide (w ∈ v :: seen ∨ w ∈ rest.take i)
          | none => false) := by
      funext i
      simp only [Function.comp, List.getElem?_cons_succ, List.take_succ_cons]
      cases h : rest[i]? with
      | none => simp
      | some w =>
        simp only [decide_eq_decide, List.mem_cons]
        tauto
    rw [hsucc, ← ih (v :: seen)]
    simp only [List.getElem?_cons_zero, List.take_zero, List.not_mem_nil, or_false,
      decide_eq_true_eq]
    by_cases hm : v ∈ seen
    · simp [hm, Nat.add_comm]
    · simp [hm]

/-- The engine's `duplicated().sum()` is exactly the spec's count of
values that duplicate an earlier occurrence. -/
theorem dupCount_eq_earlier {α : Type} [DecidableEq α] (l : List α) :
    dupCount l = earlierDuplicateCount l := by
  rw [dupCount, dupCountAux_spec]
  unfold earlierDuplicateCount
  congr 1
  funext i
  cases h : l[i]? <;> simp [h]

/-- C7: the candidate identifier columns are exactly those whose name
contains "id" case-insensitively; the evidence lists exactly the
candidates whose count of values duplicating an earlier occurrence is
positive, paired with that count; the flag holds exactly when some
candidate has a positive duplicate count; and with no candidate at all
the evidence is empty and the flag false. -/
theorem suspicious_id_characterized (df : Table) (kw : Kwargs) :
    (∀ c, c ∈ id_columns df ↔ c ∈ df.cols ∧ "id".toList <:+: lowerName c.name)
  ∧ (∀ p : String × ℕ, p ∈ (compute_quality_flags df kw).metrics.suspicious_id_columns ↔
      ∃ c ∈ df.cols, containsId c.name = true ∧ 0 < earlierDuplicateCount c.values
        ∧ p = (c.name, earlierDuplicateCount c.values))
  ∧ ((compute_quality_flags df kw).has_suspicious_id_duplicates = true ↔
      ∃ c ∈ df.cols, containsId c.name = true ∧ 0 < earlierDuplicateCount c.values)
  ∧ ((∀ c ∈ df.cols, containsId c.name = false) →
      (compute_quality_flags df kw).metrics.suspicious_id_columns = []
        ∧ (compute_quality_flags df kw).has_suspicious_id_duplicates = false) := by
  have hmem : ∀ p : String × ℕ, p ∈ suspicious_id_cols df ↔
      ∃ c ∈ df.cols, containsId c.name = true ∧ 0 < earlierDuplicateCount c.values
        ∧ p = (c.name, earlierDuplicateCount c.values) := by
    intro p
    simp only [suspicious_id_cols, id_columns, List.mem_map, List.mem_filter,
      bne_iff_ne, ne_eq, ← dupCount_eq_earlier]
    constructor
    · rintro ⟨c, ⟨⟨hc, hid⟩, hd⟩, rfl⟩
      exact ⟨c, hc, hid, Nat.pos_of_ne_zero hd, rfl⟩
    · rintro ⟨c, hc, hid, hd, rfl⟩
      exact ⟨c, ⟨⟨hc, hid⟩, Nat.pos_iff_ne_zero.mp hd⟩, rfl⟩
  have hne : suspicious_id_cols df ≠ [] ↔
      ∃ c ∈ df.cols, containsId c.name = true ∧ 0 < earlierDuplicateCount c.values := by
    constructor
    · intro h
      obtain ⟨p, hp⟩ := List.exists_mem_of_ne_nil _ h
      obtain ⟨c, hc, hid, hd, -⟩ := (hmem p).mp hp
      exact ⟨c, hc, hid, hd⟩
    · rintro ⟨c, hc, hid, hd⟩ hnil
      have hin : (c.name, earlierDuplicateCount c.values) ∈ suspicious_id_cols df :=
        (hmem _).mpr ⟨c, hc, hid, hd, rfl⟩
      rw [hnil] at hin
      simp at hin
  refine ⟨?_, ?_, ?_, ?_⟩
  · intro c
    unfold id_columns containsId
    simp [List.mem_filter]
  · intro p
    dsimp only [compute_quality_flags]
    exact hmem p
  · dsimp only [compute_quality_flags]
    simpa using hne
  · intro hno
    have hid0 : id_columns df = [] := by
      unfold id_columns
      exact List.filter_eq_nil_iff.mpr (fun c hc => by simp [hno c hc])
    have hs : suspicious_id_cols df = [] := by
      unfold suspicious_id_cols
      rw [hid0]
      rfl
    constructor
    · dsimp only [compute_quality_flags]
      exact hs
    · dsimp only [compute_quality_flags]
      simp [hs]

/-- Witness for C7 at the test table `{user_id: [1,2,2,4]}`: the evidence
contains `("user_id", 1)` and the flag is set. -/
theorem suspicious_id_characterized_witness :
    ("user_id", 1) ∈ (compute_quality_flags tblUid []).metrics.suspicious_id_columns
      ∧ (compute_quality_flags tblUid []).has_suspicious_id_duplicates = true :=
  ⟨((suspicious_id_characterized tblUid []).2.1 ("user_id", 1)).mpr
      ⟨cUid, by decide, by decide, by decide, by decide⟩,
   (suspicious_id_characterized tblUid []).2.2.1.mpr
      ⟨cUid, by decide, by decide, by decide⟩⟩

/-- C9: the analysis never mutates the caller's table.  In the threaded
form of the engine, where every read of the table passes it along, the
table that comes out is the table that went in, and the report produced
is the one the plain engine computes. -/
theorem analysis_preserves_table (df : Table) (kw : Kwargs) :
    (analyze df kw).2 = df ∧ (analyze df kw).1 = compute_quality_flags df kw :=
  ⟨rfl, rfl⟩

/-- C3 counterexample: calling the engine with the negative threshold
`high_cardinality_threshold = -1` does not fail — it returns a complete
report, and the negative threshold is in effect (the text column is
flagged high-cardinality, which the default threshold does not do). -/
theorem negative_threshold_returns_report :
    (compute_quality_flags tblCat
        [("high_cardinality_threshold", -1)]).has_high_cardinality_categories = true
  ∧ (compute_quality_flags tblCat
        [("high_cardinality_threshold", -1)]).metrics.high_cardinality_columns = [("c", 2)]
  ∧ (compute_quality_flags tblCat
        [("high_cardinality_threshold", -1)]).quality_score = 17/20
  ∧ (compute_quality_flags tblCat []).has_high_cardinality_categories = false := by
  have h1 : (compute_quality_flags tblCat
      [("high_cardinality_threshold", -1)]).has_missing = false := by decide
  have h2 : (compute_quality_flags tblCat
      [("high_cardinality_threshold", -1)]).has_duplicate_rows = false := by decide
  have h3 : (compute_quality_flags tblCat
      [("high_cardinality_threshold", -1)]).has_constant_column = false := by decide
  have h4 : (compute_quality_flags tblCat
      [("high_cardinality_threshold", -1)]).has_high_cardinality_categories = true := by decide
  have h5 : (compute_quality_flags tblCat
      [("high_cardinality_threshold", -1)]).has_suspicious_id_duplicates = false := by decide
  have h6 : (compute_quality_flags tblCat
      [("high_cardinality_threshold", -1)]).has_many_zero_values = false := by decide
  refine ⟨h4, by decide, ?_, by decide⟩
  rw [score_eq_total_penalty]
  unfold total_penalty penalty_missing penalty_duplicates penalty_constant
    penalty_high_cardinality penalty_suspicious_id penalty_zeros
  rw [h1, h2, h3, h4, h5, h6]
  norm_num

/-- C3 amended: the engine performs no validation of thresholds.  A
negative `high_cardinality_threshold` is accepted and used directly in
the comparisons: every text column (its distinct count being at least
zero) is then reported high-cardinality, and a full report is returned
rather than any error. -/
theorem negative_threshold_used_not_rejected (df : Table) (t : ℚ) (ht : t < 0) :
    ∀ c ∈ df.cols, c.dtype = .object →
      (c.name, nunique c) ∈
        (compute_quality_flags df
          [("high_cardinality_threshold", t)]).metrics.high_cardinality_columns := by
  intro c hc hdt
  dsimp only [compute_quality_flags]
  have hk : kwGet [("high_cardinality_threshold", t)] "high_cardinality_threshold" 100 = t :=
    rfl
  rw [hk]
  simp only [high_cardinality_cols, List.mem_map, List.mem_filter]
  refine ⟨c, ⟨⟨hc, by simp [hdt]⟩, ?_⟩, rfl⟩
  simp only [decide_eq_true_eq]
  exact lt_of_lt_of_le ht (by positivity)

/-- Witness for the amended C3 at the two-value text column and
threshold `-1`. -/
theorem negative_threshold_used_not_rejected_witness :
    ((-1 : ℚ) < 0)
      ∧ ("c", nunique cCat) ∈
          (compute_quality_flags tblCat
            [("high_cardinality_threshold", -1)]).metrics.high_cardinality_columns :=
  ⟨by norm_num,
   negative_threshold_used_not_rejected tblCat (-1) (by norm_num) cCat (by decide) rfl⟩

/-- C4 counterexample: on a table with one column and zero rows the
recorded per-column missing share is NaN (the pandas result of `0 / 0`),
not the value `0.0` the claim requires. -/
theorem empty_table_missing_share_is_nan :
    (compute_quality_flags tblEmptyRows []).metrics.missing_shares
        = [("a", (none : Option ℚ))]
      ∧ (none : Option ℚ) ≠ some 0 := by
  constructor
  · decide
  · simp

/-- C4 amended: on a zero-row table (with a valid, non-negative
high-cardinality threshold, the defaults included) the analysis returns
without error, all six flags are false, the score is exactly `1`, the
duplicate and constant checks are vacuously empty, and no zero share is
recorded — but each column's missing share is recorded as NaN rather
than `0.0`. -/
theorem empty_table_report (df : Table) (kw : Kwargs) (hwf : df.WF)
    (h0 : df.nRows = 0) (hthr : 0 ≤ kwGet kw "high_cardinality_threshold" 100) :
    (compute_quality_flags df kw).has_missing = false
  ∧ (compute_quality_flags df kw).has_duplicate_rows = false
  ∧ (compute_quality_flags df kw).has_constant_column = false
  ∧ (compute_quality_flags df kw).has_high_cardinality_categories = false
  ∧ (compute_quality_flags df kw).has_suspicious_id_duplicates = false
  ∧ (compute_quality_flags df kw).has_many_zero_values = false
  ∧ (compute_quality_flags df kw).quality_score = 1
  ∧ (compute_quality_flags df kw).metrics.missing_shares
      = df.cols.map (fun c => (c.name, (none : Option ℚ)))
  ∧ (compute_quality_flags df kw).metrics.many_zero_columns = []
  ∧ (compute_quality_flags df kw).metrics.duplicate_rows_count = 0
  ∧ (compute_quality_flags df kw).metrics.constant_columns = [] := by
  have hval : ∀ c ∈ df.cols, c.values = [] := fun c hc =>
    List.length_eq_zero.mp (by rw [hwf c hc, h0])
  have hmc : ∀ c ∈ df.cols, missing_count c = 0 := fun c hc => by
    simp [missing_count, hval c hc]
  have hnu : ∀ c ∈ df.cols, nunique c = 0 := fun c hc => by
    simp [nunique, hval c hc]
  have hdup : duplicate_row_count df = 0 := by
    unfold duplicate_row_count
    split
    · rfl
    · simp [Table.rows, h0, dupCount, dupCountAux]
  have hconst : constant_columns df = [] := by
    unfold constant_columns
    rw [List.filter_eq_nil_iff.mpr (fun c hc => by simp [hnu c hc])]
    rfl
  have hhc : high_cardinality_cols df (kwGet kw "high_cardinality_threshold" 100) = [] := by
    unfold high_cardinality_cols
    rw [List.filter_eq_nil_iff.mpr ?_]
    · rfl
    · intro c hc
      have hc' : c ∈ df.cols := List.mem_of_mem_filter hc
      simp [hnu c hc']
      exact hthr
  have hsid : suspicious_id_cols df = [] := by
    unfold suspicious_id_cols
    rw [List.filter_eq_nil_iff.mpr ?_]
    · rfl
    · intro c hc
      have hc' : c ∈ df.cols := List.mem_of_mem_filter hc
      simp [hval c hc', dupCount, dupCountAux]
  have hmz : many_zero_cols df (kwGet kw "zero_threshold" 0.5) = [] := by
    unfold many_zero_cols
    rw [List.filter_eq_nil_iff.mpr ?_]
    · rfl
    · intro c hc
      simp [pgt, pdiv, h0]
  have hshares : missing_shares df = df.cols.map (fun c => (c.name, (none : Option ℚ))) := by
    unfold missing_shares
    apply List.map_congr_left
    intro c hc
    simp [pdiv, h0]
  have hF1 : (compute_quality_flags df kw).has_missing = false := by
    dsimp only [compute_quality_flags]
    rw [List.any_eq_false]
    rintro ⟨nm, k⟩ hp
    simp only [List.mem_map] at hp
    obtain ⟨c, hc, heq⟩ := hp
    cases heq
    simp [hmc c hc]
  have hF2 : (compute_quality_flags df kw).has_duplicate_rows = false := by
    dsimp only [compute_quality_flags]
    simp [hdup]
  have hF3 : (compute_quality_flags df kw).has_constant_column = false := by
    dsimp only [compute_quality_flags]
    simp [hconst]
  have hF4 : (compute_quality_flags df kw).has_high_cardinality_categories = false := by
    dsimp only [compute_quality_flags]
    simp [hhc]
  have hF5 : (compute_quality_flags df kw).has_suspicious_id_duplicates = false := by
    dsimp only [compute_quality_flags]
    simp [hsid]
  have hF6 : (compute_quality_flags df kw).has_many_zero_values = false := by
    dsimp only [compute_quality_flags]
    simp [hmz]
  refine ⟨hF1, hF2, hF3, hF4, hF5, hF6, ?_, ?_, ?_, ?_, ?_⟩
  · rw [score_eq_total_penalty]
    unfold total_penalty penalty_missing penalty_duplicates penalty_constant
      penalty_high_cardinality penalty_suspicious_id penalty_zeros
    rw [hF1, hF2, hF3, hF4, hF5, hF6]
    norm_num
  · dsimp only [compute_quality_flags]
    exact hshares
  · dsimp only [compute_quality_flags]
    exact hmz
  · dsimp only [compute_quality_flags]
    exact hdup
  · dsimp only [compute_quality_flags]
    exact hconst

/-- Witness for the amended C4 at the one-column zero-row table with the
default configuration. -/
theorem empty_table_report_witness :
    tblEmptyRows.WF
      ∧ (compute_quality_flags tblEmptyRows []).quality_score = 1
      ∧ (compute_quality_flags tblEmptyRows []).has_missing = false := by
  have hwf : tblEmptyRows.WF := by
    intro c hc
    simp only [tblEmptyRows] at hc ⊢
    rcases List.mem_singleton.mp hc with rfl
    rfl
  exact ⟨hwf,
    (empty_table_report tblEmptyRows [] hwf rfl (by norm_num [kwGet])).2.2.2.2.2.2.1,
    (empty_table_report tblEmptyRows [] hwf rfl (by norm_num [kwGet])).1⟩
